import Mathlib

/-!
Verification of the event-date normalization and RSS feed generation core of
the NeoTech Club website build script (`build.py`).

The Python source is shallowly embedded: strings are `List Char`, Python
`datetime` objects are the `PyDateTime` structure (naive vs. timezone-aware is
an `Option Int` UTC offset in seconds), fallible operations return `Option`,
and a caught Python exception is an `Option.none` flowing into the handler's
branch.  `Asia/Kolkata` is modelled as the fixed offset UTC+5:30 (19800 s),
the spec's assumed source timezone; this agrees with tzdata for every local
time from 1945-10-15 (the zone's last transition) onward, and the
round-trip theorem about the timezone conversion quantifies only over that
range — the zone's earlier historical offsets (+5:53:28/+5:53:20/+5:21:10
before 1906, +6:30 during 1941-45) are not modelled.  All definitions are
executable.
-/

set_option maxRecDepth 65536

namespace Build

/-- Strings from the Python source are modelled as lists of characters. -/
abbrev Chars := List Char

/-- `0-9` test, as in the regex class `\d` restricted to ASCII. -/
def isDigitC (c : Char) : Bool := '0' ≤ c && c ≤ '9'

/-- Numeric value of a digit character. -/
def digitVal (c : Char) : Nat := c.toNat - 48

/-- Python `str` whitespace for `strip()` / regex `\s` (ASCII part). -/
def isPyWs (c : Char) : Bool :=
  c = ' ' || c = '\t' || c = '\n' || c = '\x0d' || c = '\x0b' || c = '\x0c'

/-- Python `str.strip()`. -/
def pyStrip (s : Chars) : Chars :=
  ((s.dropWhile isPyWs).reverse.dropWhile isPyWs).reverse

/-- Python `str.upper()` on the ASCII range. -/
def upperStr (s : Chars) : Chars := s.map Char.toUpper

/-- Python `str.lower()` on the ASCII range. -/
def lowerStr (s : Chars) : Chars := s.map Char.toLower

/-- Python `date_str.split(',')[0]`: the text before the first comma. -/
def beforeComma (s : Chars) : Chars := s.takeWhile (fun c => c ≠ ',')

/-- Python `s.replace('Z', '+00:00')` (replaces every occurrence). -/
def replaceZOffset : Chars → Chars
  | [] => []
  | c :: rest =>
    if c = 'Z' then '+' :: '0' :: '0' :: ':' :: '0' :: '0' :: replaceZOffset rest
    else c :: replaceZOffset rest

/-- Python `s.replace('+00:00', 'Z')` (replaces every occurrence,
scanning left to right without overlap). -/
def replacePlusZeroToZ : Chars → Chars
  | '+' :: '0' :: '0' :: ':' :: '0' :: '0' :: rest => 'Z' :: replacePlusZeroToZ rest
  | c :: rest => c :: replacePlusZeroToZ rest
  | [] => []

/-- Python `s.endswith('+00:00')`. -/
def endsWithPlusZero (s : Chars) : Bool :=
  decide (s.reverse.take 6 = ['0', '0', ':', '0', '0', '+'])

/-- Python `s.replace(' ', '')`. -/
def removeSpaces (s : Chars) : Chars := s.filter (fun c => c ≠ ' ')

/-- Substring containment test (Python `in` on strings). -/
def startsWithChars (pat s : Chars) : Bool :=
  decide (s.take pat.length = pat)

/-- Substring search used to state properties about the rendered XML. -/
def containsChars (s pat : Chars) : Bool :=
  match s with
  | [] => startsWithChars pat []
  | _ :: rest => startsWithChars pat s || containsChars rest pat

/-! ## Proleptic Gregorian calendar (as used by Python `datetime.date`) -/

/-- Gregorian leap-year rule. -/
def isLeapYear (y : Nat) : Bool := (y % 4 = 0 && y % 100 ≠ 0) || y % 400 = 0

/-- Number of days in a month. -/
def daysInMonth (y m : Nat) : Nat :=
  if m = 2 then (if isLeapYear y then 29 else 28)
  else if m = 4 || m = 6 || m = 9 || m = 11 then 30
  else 31

/-- A calendar date, as carried by Python `datetime.date`. -/
structure SimpleDate where
  year : Nat
  month : Nat
  day : Nat
deriving DecidableEq, Repr

/-- Validity condition enforced by the `datetime` constructor
(`MINYEAR = 1`, `MAXYEAR = 9999`). -/
def validDate (y m d : Nat) : Bool :=
  1 ≤ y && y ≤ 9999 && 1 ≤ m && m ≤ 12 && 1 ≤ d && d ≤ daysInMonth y m

/-- Day count from 0000-03-01 in the proleptic Gregorian calendar
(standard civil-from-days algorithm); used as a linear sort key. -/
def daysFromCivil (y m d : Nat) : Nat :=
  let y' := if m ≤ 2 then y - 1 else y
  let era := y' / 400
  let yoe := y' % 400
  let mp := if m ≤ 2 then m + 9 else m - 3
  let doy := (153 * mp + 2) / 5 + (d - 1)
  let doe := yoe * 365 + yoe / 4 - yoe / 100 + doy
  era * 146097 + doe

/-- The calendar day before `d` (`none` on underflow at 0001-01-01),
mirroring `datetime` subtraction rolling over a day boundary. -/
def prevDay (d : SimpleDate) : Option SimpleDate :=
  if 2 ≤ d.day then some ⟨d.year, d.month, d.day - 1⟩
  else if 2 ≤ d.month then some ⟨d.year, d.month - 1, daysInMonth d.year (d.month - 1)⟩
  else if 2 ≤ d.year then some ⟨d.year - 1, 12, 31⟩
  else none

/-- The calendar day after `d` (`none` on overflow at 9999-12-31). -/
def nextDay (d : SimpleDate) : Option SimpleDate :=
  if d.day < daysInMonth d.year d.month then some ⟨d.year, d.month, d.day + 1⟩
  else if d.month < 12 then some ⟨d.year, d.month + 1, 1⟩
  else if d.year < 9999 then some ⟨d.year + 1, 1, 1⟩
  else none

/-! ## Python `datetime.datetime` -/

/-- A Python `datetime.datetime` value.  `offsetSeconds = none` models a naive
datetime; `some o` models `tzinfo` with a fixed UTC offset of `o` seconds. -/
structure PyDateTime where
  date : SimpleDate
  hour : Nat
  minute : Nat
  second : Nat
  micro : Nat
  offsetSeconds : Option Int
deriving DecidableEq, Repr

/-- `datetime.max` (naive). -/
def dtMax : PyDateTime := ⟨⟨9999, 12, 31⟩, 23, 59, 59, 999999, none⟩

/-- `datetime.min` (naive). -/
def dtMin : PyDateTime := ⟨⟨1, 1, 1⟩, 0, 0, 0, 0, none⟩

/-- Absolute microsecond count of a datetime (UTC-adjusted for aware values);
for datetimes with valid field ranges this induces exactly Python's
comparison order within one awareness class. -/
def absMicro (dt : PyDateTime) : Int :=
  ((daysFromCivil dt.date.year dt.date.month dt.date.day * 86400
      + dt.hour * 3600 + dt.minute * 60 + dt.second : Nat) : Int) * 1000000
    + (dt.micro : Int) - (dt.offsetSeconds.getD 0) * 1000000

/-- Whether two datetimes are comparable in Python (both naive or both
aware); comparing across the two kinds raises `TypeError`. -/
def sameKind (a b : PyDateTime) : Bool :=
  a.offsetSeconds.isSome = b.offsetSeconds.isSome

/-- Python `a < b` on datetimes: `none` models the `TypeError` raised when a
naive and an aware datetime are compared. -/
def dtLt (a b : PyDateTime) : Option Bool :=
  if sameKind a b then some (decide (absMicro a < absMicro b)) else none

/-- Shift a datetime by `delta` seconds (|delta| < 86400), rolling the date
as needed; `none` models `OverflowError` beyond `datetime.min`/`max`.
The result carries `newOff` as its offset. -/
def shiftSeconds (dt : PyDateTime) (delta : Int) (newOff : Option Int) :
    Option PyDateTime :=
  let tod : Int := ((dt.hour * 3600 + dt.minute * 60 + dt.second : Nat) : Int) + delta
  if tod < 0 then
    match prevDay dt.date with
    | some d2 =>
      let t := (tod + 86400).toNat
      some ⟨d2, t / 3600, t % 3600 / 60, t % 60, dt.micro, newOff⟩
    | none => none
  else if tod < 86400 then
    let t := tod.toNat
    some ⟨dt.date, t / 3600, t % 3600 / 60, t % 60, dt.micro, newOff⟩
  else
    match nextDay dt.date with
    | some d2 =>
      let t := (tod - 86400).toNat
      some ⟨d2, t / 3600, t % 3600 / 60, t % 60, dt.micro, newOff⟩
    | none => none

/-- The fixed UTC offset of the assumed source timezone Asia/Kolkata
(IST, UTC+5:30), in seconds.  Faithful to tzdata for every local time from
1945-10-15 (the zone's last transition) onward; the earlier historical
offsets (+5:53:28/+5:53:20/+5:21:10 before 1906, +6:30 during 1941-45) are
not modelled, so the timezone round-trip theorem restricts to years
from 1946 on. -/
def istOffsetSeconds : Int := 19800

/-- Python `aware_dt.astimezone(ZoneInfo('UTC'))`: subtract the offset and
mark the result as UTC.  `none` models `OverflowError`. -/
def astimezoneUTC (dt : PyDateTime) (off : Int) : Option PyDateTime :=
  shiftSeconds dt (-off) (some 0)

/-! ## `datetime.fromisoformat` (Python 3.9 semantics) -/

/-- Read exactly `n` digit characters, returning their value. -/
def readDigits : Nat → Chars → Option (Nat × Chars)
  | 0, rest => some (0, rest)
  | n + 1, c :: rest =>
    if isDigitC c then
      match readDigits n rest with
      | some (v, rest') => some (digitVal c * 10 ^ n + v, rest')
      | none => none
    else none
  | _ + 1, [] => none

/-- The strict positional `YYYY-MM-DD` prefix accepted by
`datetime.fromisoformat` (month and day must be two digits). -/
def parseIsoDatePart : Chars → Option (SimpleDate × Chars)
  | y1 :: y2 :: y3 :: y4 :: '-' :: m1 :: m2 :: '-' :: d1 :: d2 :: rest =>
    if isDigitC y1 && isDigitC y2 && isDigitC y3 && isDigitC y4
        && isDigitC m1 && isDigitC m2 && isDigitC d1 && isDigitC d2 then
      let y := digitVal y1 * 1000 + digitVal y2 * 100 + digitVal y3 * 10 + digitVal y4
      let m := digitVal m1 * 10 + digitVal m2
      let d := digitVal d1 * 10 + digitVal d2
      if validDate y m d then some (⟨y, m, d⟩, rest) else none
    else none
  | _ => none

/-- `HH[:MM[:SS[.fff[fff]]]]`, requiring full consumption, mirroring
`_parse_hh_mm_ss_ff`.  Returns `(hour, minute, second, microsecond)`. -/
def parseHMSF (l : Chars) : Option (Nat × Nat × Nat × Nat) :=
  match readDigits 2 l with
  | none => none
  | some (h, rest) =>
    match rest with
    | [] => some (h, 0, 0, 0)
    | ':' :: rest2 =>
      match readDigits 2 rest2 with
      | none => none
      | some (m, rest3) =>
        match rest3 with
        | [] => some (h, m, 0, 0)
        | ':' :: rest4 =>
          match readDigits 2 rest4 with
          | none => none
          | some (s, rest5) =>
            match rest5 with
            | [] => some (h, m, s, 0)
            | '.' :: rest6 =>
              match readDigits 3 rest6 with
              | none => none
              | some (f3, rest7) =>
                match rest7 with
                | [] => some (h, m, s, f3 * 1000)
                | _ =>
                  match readDigits 3 rest7 with
                  | some (f6, []) => some (h, m, s, f3 * 1000 + f6)
                  | _ => none
            | _ => none
        | _ => none
    | _ => none

/-- Index of the first occurrence of `c`, or `none`. -/
def firstIdxOf (c : Char) : Chars → Option Nat
  | [] => none
  | x :: rest =>
    if x = c then some 0
    else match firstIdxOf c rest with
      | some i => some (i + 1)
      | none => none

/-- The split position for a trailing UTC-offset in an isoformat time string:
Python computes `max(tstr.find('-'), tstr.find('+')) + 1`. -/
def tzSplitPos (l : Chars) : Option Nat :=
  match firstIdxOf '-' l, firstIdxOf '+' l with
  | none, none => none
  | some i, none => some (i + 1)
  | none, some j => some (j + 1)
  | some i, some j => some (max i j + 1)

/-- The time (and optional offset) part of `fromisoformat`, applied after the
arbitrary one-character separator. -/
def parseIsoTimePart (l : Chars) : Option (Nat × Nat × Nat × Nat × Option Int) :=
  let split := tzSplitPos l
  let timestr := match split with | some p => l.take (p - 1) | none => l
  match parseHMSF timestr with
  | none => none
  | some (h, m, s, f) =>
    if h ≤ 23 && m ≤ 59 && s ≤ 59 then
      match split with
      | none => some (h, m, s, f, none)
      | some p =>
        let signChar := l.get? (p - 1)
        let tzstr := l.drop p
        if tzstr.length = 5 || tzstr.length = 8 || tzstr.length = 15 then
          match parseHMSF tzstr with
          | none => none
          | some (th, tm, ts, tf) =>
            let mag : Int := (th * 3600 + tm * 60 + ts : Nat)
            let off : Int := if signChar = some '-' then -mag else mag
            if tf = 0 && mag < 86400 then some (h, m, s, f, some off) else none
        else none
    else none

/-- `datetime.fromisoformat` (Python 3.9): strict `YYYY-MM-DD`, then an
arbitrary separator character and `HH[:MM[:SS[.ffffff]]][±HH:MM[:SS]]`.
`none` models the raised `ValueError`. -/
def fromisoformat (l : Chars) : Option PyDateTime :=
  match parseIsoDatePart l with
  | none => none
  | some (d, rest) =>
    match rest with
    | [] => some ⟨d, 0, 0, 0, 0, none⟩
    | _sep :: trest =>
      match parseIsoTimePart trest with
      | none => none
      | some (h, m, s, f, off) => some ⟨d, h, m, s, f, off⟩

/-! ## `datetime.strptime` for the three calendar formats of `parse_event_date` -/

/-- Alternatives for the compiled `%m`/`%I` regex `1[0-2]|0[1-9]|[1-9]`, in
the order the regex engine tries them; callers backtrack through the list. -/
def oneToTwelveAlts : Chars → List (Nat × Chars)
  | a :: b :: rest =>
    (if a = '1' && '0' ≤ b && b ≤ '2' then [(10 + digitVal b, rest)] else [])
      ++ (if a = '0' && '1' ≤ b && b ≤ '9' then [(digitVal b, rest)] else [])
      ++ (if '1' ≤ a && a ≤ '9' then [(digitVal a, b :: rest)] else [])
  | [a] => if '1' ≤ a && a ≤ '9' then [(digitVal a, [])] else []
  | [] => []

/-- Alternatives for the `%d` regex `3[01]|[12]\d|0[1-9]|[1-9]`. -/
def dayNumAlts : Chars → List (Nat × Chars)
  | a :: b :: rest =>
    (if a = '3' && (b = '0' || b = '1') then [(30 + digitVal b, rest)] else [])
      ++ (if (a = '1' || a = '2') && isDigitC b then [(digitVal a * 10 + digitVal b, rest)] else [])
      ++ (if a = '0' && '1' ≤ b && b ≤ '9' then [(digitVal b, rest)] else [])
      ++ (if '1' ≤ a && a ≤ '9' then [(digitVal a, b :: rest)] else [])
  | [a] => if '1' ≤ a && a ≤ '9' then [(digitVal a, [])] else []
  | [] => []

/-- Alternatives for the `%M` regex `[0-5]\d|\d`. -/
def minuteAlts : Chars → List (Nat × Chars)
  | a :: b :: rest =>
    (if '0' ≤ a && a ≤ '5' && isDigitC b then [(digitVal a * 10 + digitVal b, rest)] else [])
      ++ (if isDigitC a then [(digitVal a, b :: rest)] else [])
  | [a] => if isDigitC a then [(digitVal a, [])] else []
  | [] => []

/-- The regex for `%Y-%m-%d` applied by `strptime` (a literal whitespace in a
format maps to `\s+`, none occurs here); the full string must be consumed.
Returns the raw field values, before `datetime` constructor validation. -/
def strptimeYmdMatch (l : Chars) : Option (Nat × Nat × Nat) :=
  match readDigits 4 l with
  | some (y, '-' :: rest) =>
    (oneToTwelveAlts rest).findSome? (fun mv =>
      match mv.2 with
      | '-' :: rest2 =>
        (dayNumAlts rest2).findSome? (fun dv =>
          match dv.2 with
          | [] => some (y, mv.1, dv.1)
          | _ => none)
      | _ => none)
  | _ => none

/-- `datetime.strptime(s, '%Y-%m-%d')`: regex match, then constructor
validation (a `ValueError` from either is `none`). -/
def strptimeYmd (l : Chars) : Option SimpleDate :=
  match strptimeYmdMatch l with
  | some (y, m, d) => if validDate y m d then some ⟨y, m, d⟩ else none
  | none => none

/-- Case-insensitively consume the name `name` (strptime compiles its format
regexes with `IGNORECASE`). -/
def ciMatchName (name l : Chars) : Option Chars :=
  if upperStr (l.take name.length) == upperStr name then some (l.drop name.length)
  else none

/-- Full month names for `%B` in the C/en locale. -/
def monthNamesFull : List (Nat × Chars) :=
  [(1, "January".data), (2, "February".data), (3, "March".data), (4, "April".data),
   (5, "May".data), (6, "June".data), (7, "July".data), (8, "August".data),
   (9, "September".data), (10, "October".data), (11, "November".data),
   (12, "December".data)]

/-- Abbreviated month names for `%b`. -/
def monthNamesAbbr : List (Nat × Chars) :=
  [(1, "Jan".data), (2, "Feb".data), (3, "Mar".data), (4, "Apr".data),
   (5, "May".data), (6, "Jun".data), (7, "Jul".data), (8, "Aug".data),
   (9, "Sep".data), (10, "Oct".data), (11, "Nov".data), (12, "Dec".data)]

/-- `\s+`: at least one whitespace character, consumed greedily (the
following token is never whitespace in these formats). -/
def wsOnePlus : Chars → Option Chars
  | c :: rest => if isPyWs c then some (rest.dropWhile isPyWs) else none
  | [] => none

/-- The regex for `'%d %B %Y'` / `'%d %b %Y'` (month-name list as argument),
full consumption; returns raw `(day, month, year)`. -/
def strptimeDMonYMatch (names : List (Nat × Chars)) (l : Chars) :
    Option (Nat × Nat × Nat) :=
  (dayNumAlts l).findSome? (fun dv =>
    match wsOnePlus dv.2 with
    | none => none
    | some rest2 =>
      names.findSome? (fun nm =>
        match ciMatchName nm.2 rest2 with
        | none => none
        | some rest3 =>
          match wsOnePlus rest3 with
          | none => none
          | some rest4 =>
            match readDigits 4 rest4 with
            | some (y, []) => some (dv.1, nm.1, y)
            | _ => none))

/-- `datetime.strptime` against `'%d %B %Y'` or `'%d %b %Y'`. -/
def strptimeDMonY (names : List (Nat × Chars)) (l : Chars) : Option SimpleDate :=
  match strptimeDMonYMatch names l with
  | some (d, m, y) => if validDate y m d then some ⟨y, m, d⟩ else none
  | none => none

/-- `parse_event_date` from `build.py`: `None` for empty or `TBA` input,
otherwise the text before the first comma is stripped and tried against
`'%Y-%m-%d'`, `'%d %B %Y'`, `'%d %b %Y'` in order; the result is a naive
datetime at midnight, or `None` when every format fails. -/
def parse_event_date (s : Chars) : Option PyDateTime :=
  if s.isEmpty || upperStr (pyStrip s) == "TBA".data then none
  else
    let date_part := pyStrip (beforeComma s)
    match strptimeYmd date_part with
    | some d => some ⟨d, 0, 0, 0, 0, none⟩
    | none =>
      match strptimeDMonY monthNamesFull date_part with
      | some d => some ⟨d, 0, 0, 0, 0, none⟩
      | none =>
        match strptimeDMonY monthNamesAbbr date_part with
        | some d => some ⟨d, 0, 0, 0, 0, none⟩
        | none => none

/-! ## The embedded-time regexes of `parse_event_datetime_with_tz` -/

/-- The character class `[APMapm]`. -/
def isAPMchar (c : Char) : Bool :=
  c = 'A' || c = 'P' || c = 'M' || c = 'a' || c = 'p' || c = 'm'

/-- Tail of the regex `(\d{1,2}:\d{2}\s*[APMapm]{2})` after its digit part
`ds`: a colon, two digits, greedy whitespace, two class characters.  Returns
the full matched text (`group(1)`). -/
def timeTail (ds l : Chars) : Option Chars :=
  match l with
  | ':' :: a :: b :: rest =>
    if isDigitC a && isDigitC b then
      let ws := rest.takeWhile isPyWs
      match rest.dropWhile isPyWs with
      | p :: q :: _ =>
        if isAPMchar p && isAPMchar q then
          some (ds ++ ':' :: a :: b :: (ws ++ [p, q]))
        else none
      | _ => none
    else none
  | _ => none

/-- Attempt the time regex at the current position: `\d{1,2}` prefers two
digits and backtracks to one. -/
def matchTimeAt : Chars → Option Chars
  | a :: b :: rest =>
    if isDigitC a && isDigitC b then
      match timeTail [a, b] rest with
      | some g => some g
      | none => timeTail [a] (b :: rest)
    else if isDigitC a then timeTail [a] (b :: rest)
    else none
  | _ => none

/-- `re.search(r'(\d{1,2}:\d{2}\s*[APMapm]{2})', s)`: leftmost match. -/
def reSearchTime : Chars → Option Chars
  | [] => none
  | c :: cs =>
    match matchTimeAt (c :: cs) with
    | some g => some g
    | none => reSearchTime cs

/-- `datetime.strptime(tstr, '%I:%M%p')` (compiled with `IGNORECASE`):
12-hour time, converted by strptime's `%p` rule to a 24-hour
`(hour, minute)`; `none` for `ValueError`. -/
def pyStrptimeIMp (l : Chars) : Option (Nat × Nat) :=
  (oneToTwelveAlts l).findSome? (fun hv =>
    match hv.2 with
    | ':' :: rest2 =>
      (minuteAlts rest2).findSome? (fun mv =>
        match mv.2 with
        | [p1, p2] =>
          if (p1 = 'A' || p1 = 'a') && (p2 = 'M' || p2 = 'm') then
            some (if hv.1 = 12 then 0 else hv.1, mv.1)
          else if (p1 = 'P' || p1 = 'p') && (p2 = 'M' || p2 = 'm') then
            some (if hv.1 = 12 then 12 else hv.1 + 12, mv.1)
          else none
        | _ => none)
    | _ => none)

/-- `\s*Hour` (case-insensitive) at the current position. -/
def wsHourTail (l : Chars) : Bool :=
  match l.dropWhile isPyWs with
  | h :: o :: u :: r :: _ =>
    (h = 'h' || h = 'H') && (o = 'o' || o = 'O')
      && (u = 'u' || u = 'U') && (r = 'r' || r = 'R')
  | _ => false

/-- `(?:st|nd|rd|th)?` (case-insensitive): the with-suffix continuation is
tried before the empty one. -/
def suffixAlts (l : Chars) : List Chars :=
  (match l with
   | a :: b :: rest =>
     (if (a = 's' || a = 'S') && (b = 't' || b = 'T') then [rest] else [])
       ++ (if (a = 'n' || a = 'N') && (b = 'd' || b = 'D') then [rest] else [])
       ++ (if (a = 'r' || a = 'R') && (b = 'd' || b = 'D') then [rest] else [])
       ++ (if (a = 't' || a = 'T') && (b = 'h' || b = 'H') then [rest] else [])
   | _ => []) ++ [l]

/-- Attempt `(\d{1,2})(?:st|nd|rd|th)?\s*Hour` at the current position;
returns `int(group(1))`. -/
def matchHourAt : Chars → Option Nat
  | a :: rest =>
    if isDigitC a then
      let cands : List (Nat × Chars) :=
        (match rest with
         | b :: rest2 => if isDigitC b then [(digitVal a * 10 + digitVal b, rest2)] else []
         | [] => []) ++ [(digitVal a, rest)]
      cands.findSome? (fun nv =>
        (suffixAlts nv.2).findSome? (fun rest3 =>
          if wsHourTail rest3 then some nv.1 else none))
    else none
  | [] => none

/-- `re.search(r'(\d{1,2})(?:st|nd|rd|th)?\s*Hour', s, re.IGNORECASE)`. -/
def reSearchHour : Chars → Option Nat
  | [] => none
  | c :: cs =>
    match matchHourAt (c :: cs) with
    | some n => some n
    | none => reSearchHour cs

/-- `parse_event_datetime_with_tz` from `build.py`: guard empty/`TBA`, parse
the base date, best-effort extract an embedded time (`H:MM AM/PM` first, else
`<n>(st|nd|rd|th)? Hour`, else midnight; a failed `strptime` of the matched
time text is swallowed), combine into `time(hour % 24, minute)`, attach the
assumed IST timezone and convert to UTC; if that conversion raises, the naive
combined datetime is returned instead.  (`ZoneInfo('Asia/Kolkata')` is the
fixed offset `istOffsetSeconds`; see there for the fidelity boundary.) -/
def parse_event_datetime_with_tz (s : Chars) : Option PyDateTime :=
  if s.isEmpty || upperStr (pyStrip s) == "TBA".data then none
  else
    match parse_event_date s with
    | none => none
    | some base =>
      let hm : Nat × Nat :=
        match reSearchTime s with
        | some g =>
          match pyStrptimeIMp (removeSpaces (upperStr (pyStrip g))) with
          | some hm' => hm'
          | none => (0, 0)
        | none =>
          match reSearchHour s with
          | some n => (n, 0)
          | none => (0, 0)
      let combined : PyDateTime := ⟨base.date, hm.1 % 24, hm.2, 0, 0, none⟩
      match astimezoneUTC ⟨base.date, hm.1 % 24, hm.2, 0, 0, some istOffsetSeconds⟩
          istOffsetSeconds with
      | some utc => some utc
      | none => some combined

/-! ## Events and `attach_date_utc_to_event` -/

/-- A YAML scalar value of an event field (the data model uses strings;
an absent optional field is simply a missing key, YAML `null` is `null`). -/
inductive Scalar where
  | null
  | str (s : String)
deriving DecidableEq, Repr

/-- An event record: a Python dict with string keys. -/
abbrev Event := List (String × Scalar)

/-- `event.get(k)`: first binding of the key, if any. -/
def lookupKey (e : Event) (k : String) : Option Scalar :=
  match e with
  | [] => none
  | (k', v) :: rest => if k' = k then some v else lookupKey rest k

/-- `event[k] = v`: update the existing binding in place, else append. -/
def setKey (e : Event) (k : String) (v : Scalar) : Event :=
  match e with
  | [] => [(k, v)]
  | (k', v') :: rest => if k' = k then (k', v) :: rest else (k', v') :: setKey rest k v

/-- `n` rendered in decimal, zero-padded on the left to width `w`. -/
def padNum (w n : Nat) : Chars :=
  let ds := Nat.toDigits 10 n
  List.replicate (w - ds.length) '0' ++ ds

/-- The `±HH:MM[:SS]` offset suffix of `datetime.isoformat`. -/
def isoformatOffset (o : Int) : Chars :=
  let sign := if o < 0 then '-' else '+'
  let a := o.natAbs
  sign :: (padNum 2 (a / 3600) ++ ':' :: padNum 2 (a % 3600 / 60)
    ++ (if a % 60 ≠ 0 then ':' :: padNum 2 (a % 60) else []))

/-- `datetime.isoformat()`: seconds always present, microseconds only when
nonzero, offset suffix only on aware values. -/
def pyIsoformat (dt : PyDateTime) : Chars :=
  padNum 4 dt.date.year ++ '-' :: padNum 2 dt.date.month ++ '-' :: padNum 2 dt.date.day
    ++ 'T' :: padNum 2 dt.hour ++ ':' :: padNum 2 dt.minute ++ ':' :: padNum 2 dt.second
    ++ (if dt.micro ≠ 0 then '.' :: padNum 6 dt.micro else [])
    ++ (match dt.offsetSeconds with
        | none => []
        | some o => isoformatOffset o)

/-- `attach_date_utc_to_event` from `build.py`: resolve
`event.get('date') or ''` and store the result under `date_utc` — `None`
when unresolvable, else the ISO string of the UTC instant with a trailing
`+00:00` rewritten to `Z`.  (The guarded fallback that emits the unconverted
`isoformat()` on an `astimezone` failure is modelled by the inner `none`
branch; it is unreachable for resolver outputs, which are UTC or naive.) -/
def attach_date_utc_to_event (e : Event) : Event :=
  let date_str : Chars :=
    match lookupKey e "date" with
    | some (.str s) => s.data
    | _ => []
  match parse_event_datetime_with_tz date_str with
  | none => setKey e "date_utc" .null
  | some dt =>
    let isoOpt : Option Chars :=
      match dt.offsetSeconds with
      | some o => (astimezoneUTC dt o).map pyIsoformat
      | none => some (pyIsoformat dt)
    match isoOpt with
    | some iso =>
      let iso2 := if endsWithPlusZero iso then replacePlusZeroToZ iso else iso
      setKey e "date_utc" (.str ⟨iso2⟩)
    | none => setKey e "date_utc" (.str ⟨pyIsoformat dt⟩)

/-! ## The classifier loop of `convert_yaml_to_json` -/

/-- One iteration of the re-categorization loop: an event is past exactly
when its `date_utc` is a truthy string that parses via `fromisoformat`
(after `Z → +00:00`) to a datetime strictly before `now_utc`; a missing or
null `date_utc`, an unparseable one, or a comparison `TypeError` (naive
parsed value against the aware reference) all leave the event current. -/
def eventIsPast (now : PyDateTime) (e : Event) : Bool :=
  match lookupKey e "date_utc" with
  | some (.str s) =>
    if s.data.isEmpty then false
    else
      match fromisoformat (replaceZOffset s.data) with
      | none => false
      | some dt =>
        match dtLt dt now with
        | some b => b
        | none => false
  | _ => false

/-- The partition loop: events are appended to `new_current` / `new_past` in
input order, using the single captured reference instant `now`. -/
def classify (now : PyDateTime) : List Event → List Event × List Event
  | [] => ([], [])
  | e :: rest =>
    let p := classify now rest
    if eventIsPast now e then (p.1, e :: p.2) else (e :: p.1, p.2)

/-! ## The sorting of `convert_yaml_to_json` -/

/-- `sort_key_asc` from `build.py`: `datetime.max` for a falsy or
unparseable `date_utc`, else the parsed datetime. -/
def sort_key_asc (e : Event) : PyDateTime :=
  match lookupKey e "date_utc" with
  | some (.str s) =>
    if s.data.isEmpty then dtMax
    else
      match fromisoformat (replaceZOffset s.data) with
      | some dt => dt
      | none => dtMax
  | _ => dtMax

/-- `sort_key_desc` from `build.py`: `datetime.min` for a falsy or
unparseable `date_utc`, else the parsed datetime. -/
def sort_key_desc (e : Event) : PyDateTime :=
  match lookupKey e "date_utc" with
  | some (.str s) =>
    if s.data.isEmpty then dtMin
    else
      match fromisoformat (replaceZOffset s.data) with
      | some dt => dt
      | none => dtMin
  | _ => dtMin

/-- Stable insertion for an ascending sort: a new element goes before the
first existing element whose key is not smaller. -/
def insertAscKeyed (x : PyDateTime × Event) :
    List (PyDateTime × Event) → List (PyDateTime × Event)
  | [] => [x]
  | y :: ys =>
    if absMicro x.1 ≤ absMicro y.1 then x :: y :: ys else y :: insertAscKeyed x ys

/-- Stable insertion for a descending sort. -/
def insertDescKeyed (x : PyDateTime × Event) :
    List (PyDateTime × Event) → List (PyDateTime × Event)
  | [] => [x]
  | y :: ys =>
    if absMicro y.1 ≤ absMicro x.1 then x :: y :: ys else y :: insertDescKeyed x ys

/-- Whether all keys are of one awareness kind (all naive or all aware). -/
def allSameKind : List PyDateTime → Bool
  | [] => true
  | k :: ks => ks.all (fun x => sameKind k x)

/-- `new_current.sort(key=sort_key_asc)`: CPython computes every key, then
timsort compares keys; with keys of mixed awareness a naive/aware comparison
is unavoidable and raises `TypeError` (`none`), otherwise the list is stably
sorted ascending by key. -/
def sortCurrentEvents (es : List Event) : Option (List Event) :=
  let keyed := es.map (fun e => (sort_key_asc e, e))
  if allSameKind (keyed.map Prod.fst) then
    some ((keyed.foldr insertAscKeyed []).map Prod.snd)
  else none

/-- `new_past.sort(key=sort_key_desc, reverse=True)`: as above but stably
descending. -/
def sortPastEvents (es : List Event) : Option (List Event) :=
  let keyed := es.map (fun e => (sort_key_desc e, e))
  if allSameKind (keyed.map Prod.fst) then
    some ((keyed.foldr insertDescKeyed []).map Prod.snd)
  else none

/-! ## RSS item rendering (`generate_rss_feed`) -/

/-- `xml.sax.saxutils.escape` on one character. -/
def xmlEscapeChar (c : Char) : Chars :=
  if c = '&' then "&amp;".data
  else if c = '<' then "&lt;".data
  else if c = '>' then "&gt;".data
  else [c]

/-- `xml.sax.saxutils.escape`: `&` is replaced first, then `<` and `>`, which
is equivalent to this character-wise expansion. -/
def xmlEscape (s : Chars) : Chars := s.flatMap xmlEscapeChar

/-- `strftime %a` weekday abbreviations, indexed with Monday = 0. -/
def wdayAbbrevs : List Chars :=
  ["Mon".data, "Tue".data, "Wed".data, "Thu".data, "Fri".data, "Sat".data, "Sun".data]

/-- Weekday of a date, Monday = 0 (calibrated against the civil day count). -/
def weekdayIdx (d : SimpleDate) : Nat :=
  (daysFromCivil d.year d.month d.day + 2) % 7

/-- `strftime %b` month abbreviation. -/
def monthAbbr (m : Nat) : Chars :=
  (((monthNamesAbbr.find? (fun p => p.1 = m)).map Prod.snd).getD [])

/-- `dt.strftime('%a, %d %b %Y %H:%M:%S +0000')`. -/
def rfc822 (dt : PyDateTime) : Chars :=
  (wdayAbbrevs.getD (weekdayIdx dt.date) []) ++ ", ".data
    ++ padNum 2 dt.date.day ++ " ".data ++ monthAbbr dt.date.month ++ " ".data
    ++ padNum 4 dt.date.year ++ " ".data ++ padNum 2 dt.hour ++ ":".data
    ++ padNum 2 dt.minute ++ ":".data ++ padNum 2 dt.second ++ " +0000".data

/-- `event.get(k, default)`: the default fires only on a missing key.  A
present `None` value in a field later passed to `escape` would raise in
Python (and a `None` date would leak the text `None` into the feed); no
claim concerns that corner and it is modelled as an error. -/
def pyGetDefault (e : Event) (k dflt : String) : Option String :=
  match lookupKey e k with
  | none => some dflt
  | some (.str s) => some s
  | some .null => none

/-- `if event.get(k):` followed by use of the value: a truthy string. -/
def optUrl (e : Event) (k : String) : Option String :=
  match lookupKey e k with
  | some (.str s) => if s.data.isEmpty then none else some s
  | _ => none

/-- `pubDate` selection: the parsed `date_utc` when truthy and parseable,
rendered in RFC-822; otherwise the feed-generation instant `now`. -/
def pubDateOf (now : PyDateTime) (e : Event) : Chars :=
  match lookupKey e "date_utc" with
  | some (.str s) =>
    if s.data.isEmpty then rfc822 now
    else
      match fromisoformat (replaceZOffset s.data) with
      | some dt => rfc822 dt
      | none => rfc822 now
  | _ => rfc822 now

/-- The assembled HTML description body placed inside the CDATA section:
the XML-escaped description, then `Location`/`Duration`/`Date` lines for
truthy values (escaped), then optional signup/instructions anchors. -/
def fullDescription (e : Event) : Option Chars := do
  let desc ← pyGetDefault e "description" ""
  let loc ← pyGetDefault e "location" "TBD"
  let dur ← pyGetDefault e "duration" ""
  let dateStr ← pyGetDefault e "date" "TBD"
  let eLoc := xmlEscape loc.data
  let eDur := xmlEscape dur.data
  let d2 := xmlEscape desc.data
    ++ (if eLoc.isEmpty then [] else "<br/><br/><strong>Location:</strong> ".data ++ eLoc)
  let d3 := d2
    ++ (if eDur.isEmpty then [] else "<br/><strong>Duration:</strong> ".data ++ eDur)
  let d4 := d3
    ++ (if dateStr.data.isEmpty then []
        else "<br/><strong>Date:</strong> ".data ++ xmlEscape dateStr.data)
  let d5 := d4
    ++ (match optUrl e "signup_url" with
        | some u => "<br/><br/><a href=\"".data ++ xmlEscape u.data
            ++ "\">Sign Up Here</a>".data
        | none => [])
  let d6 := d5
    ++ (match optUrl e "instructions_url" with
        | some u => "<br/><a href=\"".data ++ xmlEscape u.data
            ++ "\">View Instructions</a>".data
        | none => [])
  return d6

/-- The synthesized GUID:
`f"{link}/#{event_title.replace(' ', '-').lower()}-{guid_id}"` with
`event_title` the XML-escaped title and `guid_id = date_utc or date`. -/
def rssGuid (link : Chars) (e : Event) : Option Chars := do
  let title ← pyGetDefault e "title" "Untitled Event"
  let dateStr ← pyGetDefault e "date" "TBD"
  let eTitle := xmlEscape title.data
  let guidId : Chars :=
    match lookupKey e "date_utc" with
    | some (.str s) => if s.data.isEmpty then dateStr.data else s.data
    | _ => dateStr.data
  return link ++ "/#".data
    ++ lowerStr (eTitle.map (fun c => if c = ' ' then '-' else c))
    ++ "-".data ++ guidId

/-- One `<item>` element of `generate_rss_feed`, exactly as the f-string
assembles it (`now` is the feed-generation instant used for the undated
`pubDate` fallback). -/
def renderItem (link : Chars) (now : PyDateTime) (e : Event) : Option Chars := do
  let title ← pyGetDefault e "title" "Untitled Event"
  let fd ← fullDescription e
  let guid ← rssGuid link e
  return "    <item>\n      <title>".data ++ xmlEscape title.data
    ++ "</title>\n      <description><![CDATA[".data ++ fd
    ++ "]]></description>\n      <pubDate>".data ++ pubDateOf now e
    ++ "</pubDate>\n      <link>".data ++ link
    ++ "</link>\n      <guid isPermaLink=\"false\">".data ++ guid
    ++ "</guid>\n    </item>".data

/-! ## Helper lemmas about the classifier -/

theorem classify_eq_filter (now : PyDateTime) (es : List Event) :
    classify now es =
      (es.filter (fun e => !eventIsPast now e), es.filter (fun e => eventIsPast now e)) := by
  induction es with
  | nil => rfl
  | cons e rest ih =>
    simp only [classify, ih, List.filter_cons]
    cases h : eventIsPast now e <;> simp [h]

theorem classify_append_perm (now : PyDateTime) (es : List Event) :
    ((classify now es).1 ++ (classify now es).2).Perm es := by
  rw [classify_eq_filter]
  have h : es.filter (fun e => eventIsPast now e)
      = es.filter (fun e => !(!eventIsPast now e)) := by
    simp
  simpa [h] using List.filter_append_perm (fun e => !eventIsPast now e) es

theorem classify_length (now : PyDateTime) (es : List Event) :
    (classify now es).1.length + (classify now es).2.length = es.length := by
  have h := (classify_append_perm now es).length_eq
  simpa [List.length_append] using h

/-! ## C1 -/

/-- C1: the classifier, run with the single captured reference instant,
partitions the events totally and without overlap: a `null` `date_utc` goes
to the current set, a resolved `date_utc` strictly before the reference goes
to the past set, every other event goes to the current set, and current plus
past is a permutation of the input, so sizes add up and nothing is
duplicated or lost. -/
theorem c1_partition_total (now : PyDateTime) (es : List Event) :
    ((classify now es).1.length + (classify now es).2.length = es.length)
    ∧ (∀ e ∈ es, lookupKey e "date_utc" = some Scalar.null →
        e ∈ (classify now es).1)
    ∧ (∀ e ∈ es, ∀ s dt, lookupKey e "date_utc" = some (Scalar.str s) →
        fromisoformat (replaceZOffset s.data) = some dt → dtLt dt now = some true →
        e ∈ (classify now es).2)
    ∧ (∀ e ∈ es, eventIsPast now e = false → e ∈ (classify now es).1)
    ∧ ((classify now es).1 ++ (classify now es).2).Perm es := by
  refine ⟨classify_length now es, ?_, ?_, ?_, classify_append_perm now es⟩
  · intro e he h
    rw [classify_eq_filter]
    refine List.mem_filter.2 ⟨he, ?_⟩
    simp [eventIsPast, h]
  · intro e he s dt h1 h2 h3
    rw [classify_eq_filter]
    refine List.mem_filter.2 ⟨he, ?_⟩
    have hs : s.data.isEmpty = false := by
      cases hd : s.data.isEmpty
      · rfl
      · rw [List.isEmpty_iff] at hd
        rw [hd] at h2
        simp [replaceZOffset, fromisoformat, parseIsoDatePart] at h2
    simp [eventIsPast, h1, hs, h2, h3]
  · intro e he h
    rw [classify_eq_filter]
    exact List.mem_filter.2 ⟨he, by simp [h]⟩

/-- C1 witness: all five components exercised on the spec's end-to-end
scenario (a future event, a `TBA` event, a past event), with the reference
instant 2025-06-01T00:00:00Z. -/
theorem c1_partition_total_witness :
    (classify ⟨⟨2025, 6, 1⟩, 0, 0, 0, 0, some 0⟩
        [[("date_utc", Scalar.str "2026-01-09T18:30:00Z")],
         [("date_utc", Scalar.null)],
         [("date_utc", Scalar.str "2019-12-31T18:30:00Z")]]).2
      = [[("date_utc", Scalar.str "2019-12-31T18:30:00Z")]]
    ∧ [("date_utc", Scalar.null)]
        ∈ (classify ⟨⟨2025, 6, 1⟩, 0, 0, 0, 0, some 0⟩
          [[("date_utc", Scalar.str "2026-01-09T18:30:00Z")],
           [("date_utc", Scalar.null)],
           [("date_utc", Scalar.str "2019-12-31T18:30:00Z")]]).1
    ∧ [("date_utc", Scalar.str "2019-12-31T18:30:00Z")]
        ∈ (classify ⟨⟨2025, 6, 1⟩, 0, 0, 0, 0, some 0⟩
          [[("date_utc", Scalar.str "2026-01-09T18:30:00Z")],
           [("date_utc", Scalar.null)],
           [("date_utc", Scalar.str "2019-12-31T18:30:00Z")]]).2 := by
  refine ⟨by decide, ?_, ?_⟩
  · exact (c1_partition_total ⟨⟨2025, 6, 1⟩, 0, 0, 0, 0, some 0⟩ _).2.1
      [("date_utc", Scalar.null)] (by decide) (by decide)
  · exact (c1_partition_total ⟨⟨2025, 6, 1⟩, 0, 0, 0, 0, some 0⟩ _).2.2.1
      [("date_utc", Scalar.str "2019-12-31T18:30:00Z")] (by decide)
      "2019-12-31T18:30:00Z" ⟨⟨2019, 12, 31⟩, 18, 30, 0, 0, some 0⟩
      (by decide) (by decide) (by decide)

/-! ## C10 -/

/-- C10: an event whose `date_utc` is a string that `fromisoformat` rejects
is always placed in the current set; the classifier is a total function
(the would-be `ValueError` is caught and routed to the current branch), so
classification never raises for any `date_utc` string value. -/
theorem c10_unparseable_current (now : PyDateTime) (es : List Event) (e : Event)
    (s : String) (he : e ∈ es)
    (h1 : lookupKey e "date_utc" = some (Scalar.str s))
    (h2 : fromisoformat (replaceZOffset s.data) = none) :
    e ∈ (classify now es).1
    ∧ (classify now es).1.length + (classify now es).2.length = es.length := by
  refine ⟨?_, classify_length now es⟩
  rw [classify_eq_filter]
  refine List.mem_filter.2 ⟨he, ?_⟩
  cases hd : s.data.isEmpty <;> simp [eventIsPast, h1, hd, h2]

/-- C10 witness: a garbage `date_utc` string lands in the current set. -/
theorem c10_unparseable_current_witness :
    [("date_utc", Scalar.str "not-a-date")]
      ∈ (classify ⟨⟨2025, 6, 1⟩, 0, 0, 0, 0, some 0⟩
          [[("date_utc", Scalar.str "not-a-date")]]).1
    ∧ (classify ⟨⟨2025, 6, 1⟩, 0, 0, 0, 0, some 0⟩
          [[("date_utc", Scalar.str "not-a-date")]]).1.length
        + (classify ⟨⟨2025, 6, 1⟩, 0, 0, 0, 0, some 0⟩
          [[("date_utc", Scalar.str "not-a-date")]]).2.length = 1 :=
  c10_unparseable_current ⟨⟨2025, 6, 1⟩, 0, 0, 0, 0, some 0⟩
    [[("date_utc", Scalar.str "not-a-date")]] [("date_utc", Scalar.str "not-a-date")]
    "not-a-date" (by decide) (by decide) (by decide)

/-! ## C2 -/

/-- C2 (code bug): sorting a current set that mixes a dated event with an
undated one does not place the undated event last — it fails outright.
`sort_key_asc` maps the `null` date to the naive `datetime.max` while a
parsed `date_utc` key is timezone-aware, and Python raises `TypeError` when
the sort compares them (modelled by `sortCurrentEvents` returning `none`),
aborting the whole conversion. -/
theorem c2_mixed_current_sort_raises :
    sortCurrentEvents
      [[("date_utc", Scalar.str "2025-10-09T18:30:00Z")], [("date_utc", Scalar.null)]]
      = none
    ∧ sort_key_asc [("date_utc", Scalar.null)] = dtMax
    ∧ (sort_key_asc [("date_utc", Scalar.str "2025-10-09T18:30:00Z")]).offsetSeconds
      = some 0 := by
  decide

/-! ## C5 -/

/-- C5 (code bug): the defensive `null`-sorts-last rule for the past set does
not hold on the code: `sort_key_desc` maps a `null` date to the naive
`datetime.min` while parsed keys are aware, so a past list containing a
`null`-dated event raises `TypeError` in the sort (modelled as `none`)
instead of placing that event last. -/
theorem c5_defensive_null_sort_raises :
    sortPastEvents
      [[("date_utc", Scalar.str "2020-01-01T00:00:00Z")], [("date_utc", Scalar.null)]]
      = none
    ∧ sort_key_desc [("date_utc", Scalar.null)] = dtMin
    ∧ (sort_key_desc [("date_utc", Scalar.str "2020-01-01T00:00:00Z")]).offsetSeconds
      = some 0 := by
  decide

/-! ## C6 -/

/-- C6: an empty, whitespace-only, or case-insensitively `TBA` input, and any
input whose date-bearing prefix (the stripped text before the first comma)
matches none of the three calendar formats, resolves to `None`.  The embedded
`parse_event_date` is a total function, so no error escapes. -/
theorem c6_unknown_dates_resolve_null (s : Chars)
    (h : s = [] ∨ (∀ c ∈ s, isPyWs c = true)
      ∨ upperStr (pyStrip s) = "TBA".data
      ∨ (strptimeYmd (pyStrip (beforeComma s)) = none
         ∧ strptimeDMonY monthNamesFull (pyStrip (beforeComma s)) = none
         ∧ strptimeDMonY monthNamesAbbr (pyStrip (beforeComma s)) = none)) :
    parse_event_date s = none := by
  rcases h with h | h | h | ⟨h1, h2, h3⟩
  · subst h; rfl
  · by_cases hg : (s.isEmpty || upperStr (pyStrip s) == "TBA".data) = true
    · simp only [parse_event_date, hg, if_true]
    · have hb : beforeComma s = s := by
        unfold beforeComma
        rw [List.takeWhile_eq_self_iff]
        intro c hc
        have hw := h c hc
        simp only [decide_eq_true_eq]
        intro hcc
        rw [hcc] at hw
        exact absurd hw (by decide)
      have hstrip : pyStrip s = [] := by
        unfold pyStrip
        have hd : s.dropWhile isPyWs = [] := List.dropWhile_eq_nil_iff.2 h
        simp [hd]
      simp only [parse_event_date, hg, if_false, Bool.not_eq_true] at *
      rw [if_neg (by simp [hg]), hb, hstrip]
      rfl
  · have hg : (s.isEmpty || upperStr (pyStrip s) == "TBA".data) = true := by
      simp [h]
    simp only [parse_event_date, hg, if_true]
  · by_cases hg : (s.isEmpty || upperStr (pyStrip s) == "TBA".data) = true
    · simp only [parse_event_date, hg, if_true]
    · simp only [parse_event_date, hg, if_false, Bool.not_eq_true]
      rw [if_neg (by simp [hg]), h1, h2, h3]

/-- C6 witness: `" tba "` (case-insensitive `TBA` after stripping) resolves
to `None`. -/
theorem c6_unknown_dates_resolve_null_witness :
    parse_event_date " tba ".data = none :=
  c6_unknown_dates_resolve_null " tba ".data (Or.inr (Or.inr (Or.inl (by decide))))

/-! ## C9 -/

theorem lookupKey_setKey_self (e : Event) (k : String) (v : Scalar) :
    lookupKey (setKey e k v) k = some v := by
  induction e with
  | nil => simp [setKey, lookupKey]
  | cons p rest ih =>
    by_cases hk : p.1 = k
    · simp [setKey, lookupKey, hk]
    · simp [setKey, lookupKey, hk, ih]

theorem lookupKey_setKey_other (e : Event) (k k' : String) (v : Scalar)
    (h : k' ≠ k) : lookupKey (setKey e k v) k' = lookupKey e k' := by
  have hkk : ¬k = k' := fun hh => h hh.symm
  induction e with
  | nil => simp [setKey, lookupKey, hkk]
  | cons p rest ih =>
    by_cases hk : p.1 = k
    · have hp : ¬p.1 = k' := fun hh => hkk (hk.symm.trans hh)
      simp [setKey, lookupKey, hk, hp, hkk]
    · simp [setKey, lookupKey, hk, ih]

theorem attach_eq_setKey (e : Event) :
    ∃ v, attach_date_utc_to_event e = setKey e "date_utc" v := by
  simp only [attach_date_utc_to_event]
  repeat' split
  all_goals exact ⟨_, rfl⟩

/-- C9: `attach_date_utc_to_event` touches only the `date_utc` key: every
other key keeps its former value (or stays absent), and `date_utc` is set in
every branch. -/
theorem c9_attach_frame (e : Event) :
    (∀ k, k ≠ "date_utc" →
      lookupKey (attach_date_utc_to_event e) k = lookupKey e k)
    ∧ (∃ v, lookupKey (attach_date_utc_to_event e) "date_utc" = some v)
    ∧ (∀ k, (lookupKey (attach_date_utc_to_event e) k).isSome →
        k = "date_utc" ∨ (lookupKey e k).isSome) := by
  obtain ⟨v, hv⟩ := attach_eq_setKey e
  rw [hv]
  refine ⟨fun k hk => lookupKey_setKey_other e "date_utc" k v hk,
    ⟨v, lookupKey_setKey_self e "date_utc" v⟩, fun k hk => ?_⟩
  by_cases h : k = "date_utc"
  · exact Or.inl h
  · rw [lookupKey_setKey_other e "date_utc" k v h] at hk
    exact Or.inr hk

/-- C9 witness: on a concrete event, the `title` and `date` keys are
untouched, `date_utc` is attached, and no unrelated key appears. -/
theorem c9_attach_frame_witness :
    lookupKey (attach_date_utc_to_event
        [("title", Scalar.str "Kickoff"), ("date", Scalar.str "2025-01-10")]) "title"
      = some (Scalar.str "Kickoff")
    ∧ (∃ v, lookupKey (attach_date_utc_to_event
        [("title", Scalar.str "Kickoff"), ("date", Scalar.str "2025-01-10")]) "date_utc"
      = some v)
    ∧ (lookupKey (attach_date_utc_to_event
        [("title", Scalar.str "Kickoff"), ("date", Scalar.str "2025-01-10")]) "location"
      = none) := by
  have h := c9_attach_frame [("title", Scalar.str "Kickoff"), ("date", Scalar.str "2025-01-10")]
  refine ⟨?_, h.2.1, ?_⟩
  · rw [h.1 "title" (by decide)]; decide
  · rw [h.1 "location" (by decide)]; decide

/-! ## C3 -/

theorem findSome_mem {α β : Type} (f : α → Option β) (l : List α) (b : β)
    (h : l.findSome? f = some b) : ∃ a ∈ l, f a = some b := by
  induction l with
  | nil => simp at h
  | cons x xs ih =>
    cases hfx : f x with
    | some v =>
      have hv : some v = some b := by
        rw [List.findSome?_cons, hfx] at h
        exact h
      exact ⟨x, List.mem_cons_self x xs, hfx.trans hv⟩
    | none =>
      have ht : xs.findSome? f = some b := by
        rw [List.findSome?_cons, hfx] at h
        exact h
      obtain ⟨a, ha, hfa⟩ := ih ht
      exact ⟨a, List.mem_cons_of_mem x ha, hfa⟩

theorem digitVal_le_nine (b : Char) (h : b ≤ '9') : digitVal b ≤ 9 := by
  have g : b.val.toNat ≤ 57 := h
  simp only [digitVal, Char.toNat]
  omega

theorem digitVal_le_two (b : Char) (h : b ≤ '2') : digitVal b ≤ 2 := by
  have g : b.val.toNat ≤ 50 := h
  simp only [digitVal, Char.toNat]
  omega

theorem oneToTwelveAlts_le (l : Chars) (v : Nat) (rest : Chars)
    (h : (v, rest) ∈ oneToTwelveAlts l) : v ≤ 12 := by
  match l with
  | [] => simp [oneToTwelveAlts] at h
  | [a] =>
    simp only [oneToTwelveAlts] at h
    by_cases hc : (decide ('1' ≤ a) && decide (a ≤ '9')) = true
    · rw [if_pos hc] at h
      simp only [Bool.and_eq_true, decide_eq_true_eq] at hc
      simp only [List.mem_singleton, Prod.mk.injEq] at h
      have := digitVal_le_nine a hc.2
      omega
    · rw [if_neg hc] at h
      simp at h
  | a :: b :: tl =>
    simp only [oneToTwelveAlts, List.mem_append] at h
    rcases h with (h | h) | h
    · by_cases hc : (decide (a = '1') && decide ('0' ≤ b) && decide (b ≤ '2')) = true
      · rw [if_pos hc] at h
        simp only [Bool.and_eq_true, decide_eq_true_eq] at hc
        simp only [List.mem_singleton, Prod.mk.injEq] at h
        have := digitVal_le_two b hc.2
        omega
      · rw [if_neg hc] at h
        simp at h
    · by_cases hc : (decide (a = '0') && decide ('1' ≤ b) && decide (b ≤ '9')) = true
      · rw [if_pos hc] at h
        simp only [Bool.and_eq_true, decide_eq_true_eq] at hc
        simp only [List.mem_singleton, Prod.mk.injEq] at h
        have := digitVal_le_nine b hc.2
        omega
      · rw [if_neg hc] at h
        simp at h
    · by_cases hc : (decide ('1' ≤ a) && decide (a ≤ '9')) = true
      · rw [if_pos hc] at h
        simp only [Bool.and_eq_true, decide_eq_true_eq] at hc
        simp only [List.mem_singleton, Prod.mk.injEq] at h
        have := digitVal_le_nine a hc.2
        omega
      · rw [if_neg hc] at h
        simp at h

theorem pyStrptimeIMp_hour_lt (l : Chars) (hm : Nat × Nat)
    (h : pyStrptimeIMp l = some hm) : hm.1 < 24 := by
  unfold pyStrptimeIMp at h
  obtain ⟨⟨v, vrest⟩, hmem, hbody⟩ := findSome_mem _ _ _ h
  have hv : v ≤ 12 := oneToTwelveAlts_le l v vrest hmem
  split at hbody
  · obtain ⟨⟨mv, mrest⟩, _, hbody2⟩ := findSome_mem _ _ _ hbody
    split at hbody2
    · split at hbody2
      · injection hbody2 with hh
        subst hh
        by_cases h12 : v = 12
        · simp [h12]
        · simp only [h12, if_false]
          omega
      · split at hbody2
        · injection hbody2 with hh
          subst hh
          by_cases h12 : v = 12
          · simp [h12]
          · simp only [h12, if_false]
            omega
        · exact absurd hbody2 (by simp)
    · exact absurd hbody2 (by simp)
  · exact absurd hbody (by simp)

/-- The time-of-day resolution described by the claim, with the one forced
amendment: the hour of a bare `<n> Hour` pattern is reduced modulo 24
(as the code's `time(hour % 24, minute)` does). -/
def claimTimeOfDay (s : Chars) : Nat × Nat :=
  match reSearchTime s with
  | some g =>
    match pyStrptimeIMp (removeSpaces (upperStr (pyStrip g))) with
    | some hm => hm
    | none => (0, 0)
  | none =>
    match reSearchHour s with
    | some n => (n % 24, 0)
    | none => (0, 0)

/-- The time-of-day resolution exactly as the claim states it: the hour of a
`<n>(st|nd|rd|th)? Hour` pattern is `<n>` itself. -/
def claimTimeOfDayVerbatim (s : Chars) : Nat × Nat :=
  match reSearchTime s with
  | some g =>
    match pyStrptimeIMp (removeSpaces (upperStr (pyStrip g))) with
    | some hm => hm
    | none => (0, 0)
  | none =>
    match reSearchHour s with
    | some n => (n, 0)
    | none => (0, 0)

/-- The timezone step applied to a naive local datetime: attach the assumed
IST offset, convert to UTC, and keep the naive value if that raises. -/
def istNaiveToUtcOrSelf (dt : PyDateTime) : PyDateTime :=
  match astimezoneUTC
      ⟨dt.date, dt.hour, dt.minute, dt.second, dt.micro, some istOffsetSeconds⟩
      istOffsetSeconds with
  | some u => u
  | none => dt

theorem istMatch (d : SimpleDate) (hh mm : Nat) :
    (match astimezoneUTC ⟨d, hh, mm, 0, 0, some istOffsetSeconds⟩ istOffsetSeconds with
     | some utc => some utc
     | none => some (⟨d, hh, mm, 0, 0, none⟩ : PyDateTime))
    = some (istNaiveToUtcOrSelf ⟨d, hh, mm, 0, 0, none⟩) := by
  unfold istNaiveToUtcOrSelf
  cases h : astimezoneUTC ⟨d, hh, mm, 0, 0, some istOffsetSeconds⟩ istOffsetSeconds <;>
    simp [h]

/-- C3 (amended): whenever the date-bearing prefix parses, the resolver
returns the base date combined with the claim's time-of-day — an `H:MM`
`AM`/`PM` pattern parsed to 24-hour hour/minue, else a `<n>` `Hour` pattern
as hour `n % 24`, else midnight — carried through the fixed-timezone
conversion; a malformed embedded time never aborts the resolution. -/
theorem c3_time_extraction (s : Chars) (base : PyDateTime)
    (h : parse_event_date s = some base) :
    parse_event_datetime_with_tz s =
      some (istNaiveToUtcOrSelf
        ⟨base.date, (claimTimeOfDay s).1, (claimTimeOfDay s).2, 0, 0, none⟩) := by
  have hg : (s.isEmpty || upperStr (pyStrip s) == "TBA".data) = false := by
    cases hgb : (s.isEmpty || upperStr (pyStrip s) == "TBA".data)
    · rfl
    · rw [parse_event_date, if_pos hgb] at h
      exact absurd h (by simp)
  rw [parse_event_datetime_with_tz, if_neg (by simp [hg]), h]
  cases hrt : reSearchTime s with
  | some g =>
    cases hsp : pyStrptimeIMp (removeSpaces (upperStr (pyStrip g))) with
    | some hm' =>
      have hlt := pyStrptimeIMp_hour_lt _ _ hsp
      simp only [claimTimeOfDay, hrt, hsp]
      rw [Nat.mod_eq_of_lt hlt]
      exact istMatch base.date hm'.1 hm'.2
    | none =>
      simp only [claimTimeOfDay, hrt, hsp]
      exact istMatch base.date 0 0
  | none =>
    cases hrh : reSearchHour s with
    | some n =>
      simp only [claimTimeOfDay, hrt, hrh]
      exact istMatch base.date (n % 24) 0
    | none =>
      simp only [claimTimeOfDay, hrt, hrh]
      exact istMatch base.date 0 0

/-- C3 counterexample: for `"10 October 2025, 25th Hour"` the claim as
stated predicts resolved hour 25, but the code resolves local 01:00
(25 mod 24), giving a UTC instant one day earlier than the claim implies. -/
theorem c3_counterexample :
    claimTimeOfDayVerbatim "10 October 2025, 25th Hour".data = (25, 0)
    ∧ parse_event_datetime_with_tz "10 October 2025, 25th Hour".data
        ≠ some (istNaiveToUtcOrSelf ⟨⟨2025, 10, 10⟩,
            (claimTimeOfDayVerbatim "10 October 2025, 25th Hour".data).1,
            (claimTimeOfDayVerbatim "10 October 2025, 25th Hour".data).2, 0, 0, none⟩)
    ∧ parse_event_datetime_with_tz "10 October 2025, 25th Hour".data
        = some ⟨⟨2025, 10, 9⟩, 19, 30, 0, 0, some 0⟩ := by
  decide

/-- C3 witness: the spec's own example input resolves to local 13:20 and to
the UTC instant offset by the fixed timezone difference. -/
theorem c3_time_extraction_witness :
    parse_event_datetime_with_tz "10 October 2025, Friday (1:20PM)".data
      = some (istNaiveToUtcOrSelf ⟨⟨2025, 10, 10⟩,
          (claimTimeOfDay "10 October 2025, Friday (1:20PM)".data).1,
          (claimTimeOfDay "10 October 2025, Friday (1:20PM)".data).2, 0, 0, none⟩)
    ∧ claimTimeOfDay "10 October 2025, Friday (1:20PM)".data = (13, 20)
    ∧ istNaiveToUtcOrSelf ⟨⟨2025, 10, 10⟩, 13, 20, 0, 0, none⟩
      = ⟨⟨2025, 10, 10⟩, 7, 50, 0, 0, some 0⟩ := by
  refine ⟨c3_time_extraction "10 October 2025, Friday (1:20PM)".data
    ⟨⟨2025, 10, 10⟩, 0, 0, 0, 0, none⟩ (by decide), by decide, by decide⟩

/-! ## C4: supporting character and search lemmas -/

theorem findSome_none {α β : Type} (f : α → Option β) (l : List α)
    (h : ∀ a ∈ l, f a = none) : l.findSome? f = none := by
  induction l with
  | nil => rfl
  | cons x xs ih =>
    rw [List.findSome?_cons, h x (List.mem_cons_self x xs)]
    exact ih (fun a ha => h a (List.mem_cons_of_mem x ha))

theorem digitDash_facts (c : Char) (h : isDigitC c = true ∨ c = '-') :
    ¬c = ',' ∧ isPyWs c = false ∧ ¬c = ':' ∧ ¬c = 'h' ∧ ¬c = 'H' := by
  rcases h with h | h
  · refine ⟨?_, ?_, ?_, ?_, ?_⟩
    · intro hc; rw [hc] at h; exact absurd h (by decide)
    · cases hw : isPyWs c
      · rfl
      · exfalso
        simp only [isPyWs, Bool.or_eq_true, decide_eq_true_eq] at hw
        rcases hw with ((((hc | hc) | hc) | hc) | hc) | hc <;>
          (rw [hc] at h; exact absurd h (by decide))
    · intro hc; rw [hc] at h; exact absurd h (by decide)
    · intro hc; rw [hc] at h; exact absurd h (by decide)
    · intro hc; rw [hc] at h; exact absurd h (by decide)
  · subst h
    exact ⟨by decide, rfl, by decide, by decide, by decide⟩

theorem timeTail_none (ds l : Chars) (h : ∀ c ∈ l, ¬c = ':') :
    timeTail ds l = none := by
  unfold timeTail
  split
  · exact absurd rfl (h ':' (by simp))
  · rfl

theorem matchTimeAt_none (l : Chars) (h : ∀ c ∈ l, ¬c = ':') :
    matchTimeAt l = none := by
  unfold matchTimeAt
  split
  · rename_i a b rest
    have h1 : timeTail [a, b] rest = none :=
      timeTail_none _ _
        (fun c hc => h c (List.mem_cons_of_mem a (List.mem_cons_of_mem b hc)))
    have h2 : timeTail [a] (b :: rest) = none :=
      timeTail_none _ _ (fun c hc => h c (List.mem_cons_of_mem a hc))
    rw [h1, h2]
    split
    · rfl
    · split <;> rfl
  · rfl

theorem reSearchTime_none (l : Chars) (h : ∀ c ∈ l, ¬c = ':') :
    reSearchTime l = none := by
  induction l with
  | nil => rfl
  | cons c cs ih =>
    rw [reSearchTime, matchTimeAt_none (c :: cs) h]
    exact ih (fun x hx => h x (List.mem_cons_of_mem c hx))

theorem wsHourTail_false (l : Chars) (h : ∀ c ∈ l, ¬c = 'h' ∧ ¬c = 'H') :
    wsHourTail l = false := by
  unfold wsHourTail
  split
  · rename_i hh oo uu rr rest2 heq
    have hmem : hh ∈ l := by
      have hsub := List.dropWhile_sublist (l := l) (p := isPyWs)
      exact hsub.mem (heq ▸ List.mem_cons_self hh _)
    obtain ⟨hA, hB⟩ := h hh hmem
    simp [hA, hB]
  · rfl

theorem suffixAlts_sub (l' x : Chars) (hx : x ∈ suffixAlts l') (c : Char)
    (hc : c ∈ x) : c ∈ l' := by
  unfold suffixAlts at hx
  rw [List.mem_append] at hx
  rcases hx with hx | hx
  · match l' with
    | [] => simp at hx
    | [a] => simp at hx
    | a :: b :: rest =>
      simp only [List.mem_append] at hx
      rcases hx with (((hx | hx) | hx) | hx) <;>
        · split at hx
          · simp only [List.mem_singleton] at hx
            subst hx
            exact List.mem_cons_of_mem a (List.mem_cons_of_mem b hc)
          · simp at hx
  · simp only [List.mem_singleton] at hx
    subst hx
    exact hc

theorem matchHourAt_none (l : Chars) (h : ∀ c ∈ l, ¬c = 'h' ∧ ¬c = 'H') :
    matchHourAt l = none := by
  unfold matchHourAt
  split
  · rename_i a rest
    split
    · apply findSome_none
      rintro ⟨n, tail⟩ hmem
      have htail : ∀ c ∈ tail, ¬c = 'h' ∧ ¬c = 'H' := by
        intro c hc
        refine h c ?_
        rcases List.mem_append.1 hmem with hm | hm
        · match rest with
          | [] => exact absurd hm (List.not_mem_nil _)
          | b :: rest2 =>
            change (n, tail)
              ∈ (if isDigitC b = true then [(digitVal a * 10 + digitVal b, rest2)] else [])
              at hm
            by_cases hdb : isDigitC b = true
            · rw [if_pos hdb] at hm
              cases hm with
              | head => exact List.mem_cons_of_mem a (List.mem_cons_of_mem b hc)
              | tail _ hm => exact absurd hm (List.not_mem_nil _)
            · rw [if_neg hdb] at hm
              exact absurd hm (List.not_mem_nil _)
        · cases hm with
          | head => exact List.mem_cons_of_mem a hc
          | tail _ hm => exact absurd hm (List.not_mem_nil _)
      apply findSome_none
      intro x hxmem
      rw [wsHourTail_false x (fun c hc => htail c (suffixAlts_sub tail x hxmem c hc))]
      rfl
    · rfl
  · rfl

theorem reSearchHour_none (l : Chars) (h : ∀ c ∈ l, ¬c = 'h' ∧ ¬c = 'H') :
    reSearchHour l = none := by
  induction l with
  | nil => rfl
  | cons c cs ih =>
    rw [reSearchHour, matchHourAt_none (c :: cs) h]
    exact ih (fun x hx => h x (List.mem_cons_of_mem c hx))

theorem dropWhile_id_of_none (p : Char → Bool) (l : Chars)
    (h : ∀ c ∈ l, p c = false) : l.dropWhile p = l := by
  cases l with
  | nil => rfl
  | cons c cs => simp [List.dropWhile_cons, h c (List.mem_cons_self c cs)]

theorem pyStrip_id (l : Chars) (h : ∀ c ∈ l, isPyWs c = false) :
    pyStrip l = l := by
  unfold pyStrip
  rw [dropWhile_id_of_none _ _ h,
    dropWhile_id_of_none _ _ (fun c hc => h c (List.mem_reverse.1 hc)),
    List.reverse_reverse]

theorem beforeComma_id (l : Chars) (h : ∀ c ∈ l, ¬c = ',') :
    beforeComma l = l := by
  unfold beforeComma
  rw [List.takeWhile_eq_self_iff]
  intro c hc
  simp only [decide_eq_true_eq]
  exact h c hc

/-! ## C4: shape of strings accepted by the `%Y-%m-%d` format -/

theorem isDigitC_char (a : Char) (h1 : '0' ≤ a) (h2 : a ≤ '9') :
    isDigitC a = true := by
  simp only [isDigitC, Bool.and_eq_true, decide_eq_true_eq]
  exact ⟨h1, h2⟩

theorem zero_le_of_one_le (a : Char) (h : '1' ≤ a) : '0' ≤ a := by
  have g : 49 ≤ a.val.toNat := h
  exact (by omega : (48 : Nat) ≤ a.val.toNat)

theorem le_nine_of_le_two (a : Char) (h : a ≤ '2') : a ≤ '9' := by
  have g : a.val.toNat ≤ 50 := h
  exact (by omega : a.val.toNat ≤ (57 : Nat))

theorem readDigits_shape (n : Nat) (l : Chars) (v : Nat) (rest : Chars)
    (h : readDigits n l = some (v, rest)) :
    ∃ ds, l = ds ++ rest ∧ ds.length = n ∧ ∀ c ∈ ds, isDigitC c = true := by
  induction n generalizing l v with
  | zero =>
    simp only [readDigits, Option.some.injEq, Prod.mk.injEq] at h
    exact ⟨[], by simp [h.2], rfl, by simp⟩
  | succ n ih =>
    match l with
    | [] => exact absurd h (by simp [readDigits])
    | c :: t =>
      simp only [readDigits] at h
      by_cases hd : isDigitC c = true
      · rw [if_pos hd] at h
        cases hr : readDigits n t with
        | none => rw [hr] at h; exact absurd h (by simp)
        | some p =>
          obtain ⟨v', rest'⟩ := p
          rw [hr] at h
          simp only [Option.some.injEq, Prod.mk.injEq] at h
          obtain ⟨hv, hrest⟩ := h
          subst hrest
          obtain ⟨ds, hds, hlen, hdig⟩ := ih t v' hr
          refine ⟨c :: ds, by rw [hds]; rfl, by simp [hlen], ?_⟩
          intro x hx
          rcases List.mem_cons.1 hx with hxc | hx
          · rw [hxc]; exact hd
          · exact hdig x hx
      · rw [if_neg hd] at h
        exact absurd h (by simp)

theorem oneToTwelveAlts_shape (l : Chars) (v : Nat) (rest : Chars)
    (h : (v, rest) ∈ oneToTwelveAlts l) :
    ∃ ds, l = ds ++ rest ∧ ds ≠ [] ∧ ∀ c ∈ ds, isDigitC c = true := by
  match l with
  | [] => simp [oneToTwelveAlts] at h
  | [a] =>
    simp only [oneToTwelveAlts] at h
    by_cases hc : (decide ('1' ≤ a) && decide (a ≤ '9')) = true
    · rw [if_pos hc] at h
      simp only [Bool.and_eq_true, decide_eq_true_eq] at hc
      simp only [List.mem_singleton, Prod.mk.injEq] at h
      refine ⟨[a], by simp [h.2], by simp, ?_⟩
      intro x hx
      rw [List.mem_singleton.1 hx]
      exact isDigitC_char a (zero_le_of_one_le a hc.1) hc.2
    · rw [if_neg hc] at h
      simp at h
  | a :: b :: tl =>
    simp only [oneToTwelveAlts, List.mem_append] at h
    rcases h with (h | h) | h
    · by_cases hc : (decide (a = '1') && decide ('0' ≤ b) && decide (b ≤ '2')) = true
      · rw [if_pos hc] at h
        simp only [Bool.and_eq_true, decide_eq_true_eq] at hc
        simp only [List.mem_singleton, Prod.mk.injEq] at h
        refine ⟨[a, b], by simp [h.2], by simp, ?_⟩
        intro x hx
        rcases List.mem_cons.1 hx with hxa | hx
        · rw [hxa, hc.1.1]; decide
        · rw [List.mem_singleton.1 hx]
          exact isDigitC_char b hc.1.2 (le_nine_of_le_two b hc.2)
      · rw [if_neg hc] at h
        simp at h
    · by_cases hc : (decide (a = '0') && decide ('1' ≤ b) && decide (b ≤ '9')) = true
      · rw [if_pos hc] at h
        simp only [Bool.and_eq_true, decide_eq_true_eq] at hc
        simp only [List.mem_singleton, Prod.mk.injEq] at h
        refine ⟨[a, b], by simp [h.2], by simp, ?_⟩
        intro x hx
        rcases List.mem_cons.1 hx with hxa | hx
        · rw [hxa, hc.1.1]; decide
        · rw [List.mem_singleton.1 hx]
          exact isDigitC_char b (zero_le_of_one_le b hc.1.2) hc.2
      · rw [if_neg hc] at h
        simp at h
    · by_cases hc : (decide ('1' ≤ a) && decide (a ≤ '9')) = true
      · rw [if_pos hc] at h
        simp only [Bool.and_eq_true, decide_eq_true_eq] at hc
        simp only [List.mem_singleton, Prod.mk.injEq] at h
        refine ⟨[a], by simp [h.2], by simp, ?_⟩
        intro x hx
        rw [List.mem_singleton.1 hx]
        exact isDigitC_char a (zero_le_of_one_le a hc.1) hc.2
      · rw [if_neg hc] at h
        simp at h

theorem dayNumAlts_shape (l : Chars) (v : Nat) (rest : Chars)
    (h : (v, rest) ∈ dayNumAlts l) :
    ∃ ds, l = ds ++ rest ∧ ds ≠ [] ∧ ∀ c ∈ ds, isDigitC c = true := by
  match l with
  | [] => simp [dayNumAlts] at h
  | [a] =>
    simp only [dayNumAlts] at h
    by_cases hc : (decide ('1' ≤ a) && decide (a ≤ '9')) = true
    · rw [if_pos hc] at h
      simp only [Bool.and_eq_true, decide_eq_true_eq] at hc
      simp only [List.mem_singleton, Prod.mk.injEq] at h
      refine ⟨[a], by simp [h.2], by simp, ?_⟩
      intro x hx
      rw [List.mem_singleton.1 hx]
      exact isDigitC_char a (zero_le_of_one_le a hc.1) hc.2
    · rw [if_neg hc] at h
      simp at h
  | a :: b :: tl =>
    simp only [dayNumAlts, List.mem_append] at h
    rcases h with ((h | h) | h) | h
    · by_cases hc : (decide (a = '3') && (decide (b = '0') || decide (b = '1'))) = true
      · rw [if_pos hc] at h
        simp only [Bool.and_eq_true, Bool.or_eq_true, decide_eq_true_eq] at hc
        simp only [List.mem_singleton, Prod.mk.injEq] at h
        refine ⟨[a, b], by simp [h.2], by simp, ?_⟩
        intro x hx
        rcases List.mem_cons.1 hx with hxa | hx
        · rw [hxa, hc.1]; decide
        · rw [List.mem_singleton.1 hx]
          rcases hc.2 with hb | hb <;> (rw [hb]; decide)
      · rw [if_neg hc] at h
        simp at h
    · by_cases hc : ((decide (a = '1') || decide (a = '2')) && isDigitC b) = true
      · rw [if_pos hc] at h
        simp only [Bool.and_eq_true, Bool.or_eq_true, decide_eq_true_eq] at hc
        simp only [List.mem_singleton, Prod.mk.injEq] at h
        refine ⟨[a, b], by simp [h.2], by simp, ?_⟩
        intro x hx
        rcases List.mem_cons.1 hx with hxa | hx
        · rw [hxa]
          rcases hc.1 with ha | ha <;> (rw [ha]; decide)
        · rw [List.mem_singleton.1 hx]
          exact hc.2
      · rw [if_neg hc] at h
        simp at h
    · by_cases hc : (decide (a = '0') && decide ('1' ≤ b) && decide (b ≤ '9')) = true
      · rw [if_pos hc] at h
        simp only [Bool.and_eq_true, decide_eq_true_eq] at hc
        simp only [List.mem_singleton, Prod.mk.injEq] at h
        refine ⟨[a, b], by simp [h.2], by simp, ?_⟩
        intro x hx
        rcases List.mem_cons.1 hx with hxa | hx
        · rw [hxa, hc.1.1]; decide
        · rw [List.mem_singleton.1 hx]
          exact isDigitC_char b (zero_le_of_one_le b hc.1.2) hc.2
      · rw [if_neg hc] at h
        simp at h
    · by_cases hc : (decide ('1' ≤ a) && decide (a ≤ '9')) = true
      · rw [if_pos hc] at h
        simp only [Bool.and_eq_true, decide_eq_true_eq] at hc
        simp only [List.mem_singleton, Prod.mk.injEq] at h
        refine ⟨[a], by simp [h.2], by simp, ?_⟩
        intro x hx
        rw [List.mem_singleton.1 hx]
        exact isDigitC_char a (zero_le_of_one_le a hc.1) hc.2
      · rw [if_neg hc] at h
        simp at h

theorem strptimeYmdMatch_shape (l : Chars) (y m d : Nat)
    (h : strptimeYmdMatch l = some (y, m, d)) :
    (∀ c ∈ l, isDigitC c = true ∨ c = '-') ∧ 8 ≤ l.length := by
  simp only [strptimeYmdMatch] at h
  split at h
  · rename_i yv rest heq
    obtain ⟨⟨mv, mrest⟩, hmem, hbody⟩ := findSome_mem _ _ _ h
    obtain ⟨ds4, hl4, hlen4, hdig4⟩ := readDigits_shape 4 l yv ('-' :: rest) heq
    obtain ⟨dsm, hlm, hnem, hdigm⟩ := oneToTwelveAlts_shape rest mv mrest hmem
    split at hbody
    · rename_i rest2 heq2
      have heq2' : mrest = '-' :: rest2 := heq2
      obtain ⟨⟨dv, drest⟩, hdmem, hdbody⟩ := findSome_mem _ _ _ hbody
      obtain ⟨dsd, hld, hned, hdigd⟩ := dayNumAlts_shape rest2 dv drest hdmem
      have hdrest : drest = [] := by
        rcases drest with _ | ⟨c0, t0⟩
        · rfl
        · exact Option.noConfusion hdbody
      subst hdrest
      rw [List.append_nil] at hld
      constructor
      · intro c hc
        rw [hl4] at hc
        rcases List.mem_append.1 hc with hc | hc
        · exact Or.inl (hdig4 c hc)
        · rcases List.mem_cons.1 hc with rfl | hc
          · exact Or.inr rfl
          · rw [hlm] at hc
            rcases List.mem_append.1 hc with hc | hc
            · exact Or.inl (hdigm c hc)
            · rw [heq2'] at hc
              rcases List.mem_cons.1 hc with rfl | hc
              · exact Or.inr rfl
              · rw [hld] at hc
                exact Or.inl (hdigd c hc)
      · have hm1 : 1 ≤ dsm.length := List.length_pos.2 hnem
        have hd1 : 1 ≤ dsd.length := List.length_pos.2 hned
        rw [hl4, hlm, heq2', hld]
        simp only [List.length_append, List.length_cons, hlen4]
        omega
    · exact absurd hbody (by simp)
  · exact absurd h (by simp)

/-! ## C4: calendar round trip -/

theorem prevDay_nextDay (y m d : Nat) (hv : validDate y m d = true)
    (hne : ¬(y = 1 ∧ m = 1 ∧ d = 1)) :
    ∃ p, prevDay ⟨y, m, d⟩ = some p ∧ nextDay p = some ⟨y, m, d⟩ := by
  simp only [validDate, Bool.and_eq_true, decide_eq_true_eq] at hv
  obtain ⟨⟨⟨⟨⟨h1y, h2y⟩, h1m⟩, h2m⟩, h1d⟩, h2d⟩ := hv
  by_cases hd2 : 2 ≤ d
  · refine ⟨⟨y, m, d - 1⟩, by simp [prevDay, hd2], ?_⟩
    simp only [nextDay]
    rw [if_pos (by omega : d - 1 < daysInMonth y m)]
    have hdd : d - 1 + 1 = d := by omega
    rw [hdd]
  · have hd1 : d = 1 := by omega
    subst hd1
    by_cases hm2 : 2 ≤ m
    · refine ⟨⟨y, m - 1, daysInMonth y (m - 1)⟩, by simp [prevDay, hm2], ?_⟩
      simp only [nextDay]
      rw [if_neg (by omega : ¬daysInMonth y (m - 1) < daysInMonth y (m - 1)),
        if_pos (by omega : m - 1 < 12)]
      have hmm : m - 1 + 1 = m := by omega
      rw [hmm]
    · have hm1 : m = 1 := by omega
      subst hm1
      have hy2 : 2 ≤ y := by
        have hy1 : ¬y = 1 := fun hh => hne ⟨hh, rfl, rfl⟩
        omega
      refine ⟨⟨y - 1, 12, 31⟩, by simp [prevDay, hy2], ?_⟩
      have hdim : daysInMonth (y - 1) 12 = 31 := by simp [daysInMonth]
      simp only [nextDay, hdim]
      rw [if_neg (by omega : ¬(31 : Nat) < 31), if_neg (by omega : ¬(12 : Nat) < 12),
        if_pos (by omega : y - 1 < 9999)]
      have hyy : y - 1 + 1 = y := by omega
      rw [hyy]

theorem shift_midnight_back (dd p : SimpleDate) (hp : prevDay dd = some p) :
    shiftSeconds ⟨dd, 0, 0, 0, 0, some istOffsetSeconds⟩ (-istOffsetSeconds) (some 0)
      = some ⟨p, 18, 30, 0, 0, some 0⟩ := by
  simp only [shiftSeconds, istOffsetSeconds]
  norm_num
  rw [hp]
  rfl

theorem shift_evening_forward (p dd : SimpleDate) (hnp : nextDay p = some dd) :
    shiftSeconds ⟨p, 18, 30, 0, 0, none⟩ istOffsetSeconds none
      = some ⟨dd, 0, 0, 0, 0, none⟩ := by
  simp only [shiftSeconds, istOffsetSeconds]
  norm_num
  rw [hnp]

/-- The C4 round-trip property at one input: the resolver returns a value
whose fields, read as a UTC instant and shifted by +5:30 back into the
assumed source timezone, give local midnight of the stated calendar date. -/
def roundTripsToLocalMidnight (s : Chars) (y m d : Nat) : Bool :=
  match parse_event_datetime_with_tz s with
  | some dt =>
    shiftSeconds ⟨dt.date, dt.hour, dt.minute, dt.second, dt.micro, none⟩
        istOffsetSeconds none
      == some ⟨⟨y, m, d⟩, 0, 0, 0, 0, none⟩
  | none => false

/-- C4 counterexample: the valid date string `"0001-01-01"` does not round
trip.  Converting its local midnight to UTC underflows `datetime.min`, the
`except` branch returns the naive local value unchanged, and reading that
value as UTC and shifting back into IST gives local 05:30, not midnight. -/
theorem c4_counterexample :
    strptimeYmd "0001-01-01".data = some ⟨1, 1, 1⟩
    ∧ parse_event_datetime_with_tz "0001-01-01".data
        = some ⟨⟨1, 1, 1⟩, 0, 0, 0, 0, none⟩
    ∧ roundTripsToLocalMidnight "0001-01-01".data 1 1 1 = false := by
  decide

/-- C4 (amended): for every date string accepted by the `%Y-%m-%d` format
with year 1946 or later — the dates on which Asia/Kolkata's offset is the
constant +5:30, its tzdata transitions all lying before 1946 — the resolver
returns a UTC instant which, shifted back into the assumed source timezone
(IST, UTC+5:30), is local midnight of the input's calendar date.  (Earlier
years fall outside the fixed-offset model: the zone's historical offsets
break the +5:30 round trip there, and `0001-01-01` underflows — see the
counterexample.) -/
theorem c4_iso_roundtrip (s : Chars) (y m d : Nat)
    (h : strptimeYmd s = some ⟨y, m, d⟩) (hy : 1946 ≤ y) :
    roundTripsToLocalMidnight s y m d = true := by
  have hne : ¬(y = 1 ∧ m = 1 ∧ d = 1) := by
    rintro ⟨h1, -, -⟩
    omega
  have hmv : strptimeYmdMatch s = some (y, m, d) ∧ validDate y m d = true := by
    simp only [strptimeYmd] at h
    cases hm : strptimeYmdMatch s with
    | none => rw [hm] at h; exact absurd h (by simp)
    | some t =>
      obtain ⟨y', m', d'⟩ := t
      rw [hm] at h
      have h' : (if validDate y' m' d' = true then some (⟨y', m', d'⟩ : SimpleDate)
          else none) = some ⟨y, m, d⟩ := h
      by_cases hv : validDate y' m' d' = true
      · rw [if_pos hv] at h'
        simp only [Option.some.injEq, SimpleDate.mk.injEq] at h'
        obtain ⟨hy, hmm, hd⟩ := h'
        subst hy; subst hmm; subst hd
        exact ⟨rfl, hv⟩
      · rw [if_neg hv] at h'
        exact absurd h' (by simp)
  obtain ⟨hmatch, hvalid⟩ := hmv
  obtain ⟨hall, hlen⟩ := strptimeYmdMatch_shape s y m d hmatch
  have hfacts := fun c hc => digitDash_facts c (hall c hc)
  have hne_nil : s ≠ [] := by
    intro hh; rw [hh] at hlen; simp at hlen
  have hempty : s.isEmpty = false := by
    cases he : s.isEmpty
    · rfl
    · exact absurd (List.isEmpty_iff.1 he) hne_nil
  have hstrip : pyStrip s = s := pyStrip_id s (fun c hc => (hfacts c hc).2.1)
  have htba : (upperStr s == "TBA".data) = false := by
    cases hb : (upperStr s == "TBA".data)
    · rfl
    · exfalso
      have heq : upperStr s = "TBA".data := by simpa using hb
      have hl3 : s.length = 3 := by
        have hl := congrArg List.length heq
        simpa [upperStr] using hl
      omega
  have hbc : beforeComma s = s := beforeComma_id s (fun c hc => (hfacts c hc).1)
  have hped : parse_event_date s = some ⟨⟨y, m, d⟩, 0, 0, 0, 0, none⟩ := by
    simp [parse_event_date, hbc, hstrip, hempty, htba, h]
  have hrt : reSearchTime s = none :=
    reSearchTime_none s (fun c hc => (hfacts c hc).2.2.1)
  have hrh : reSearchHour s = none :=
    reSearchHour_none s
      (fun c hc => ⟨(hfacts c hc).2.2.2.1, (hfacts c hc).2.2.2.2⟩)
  obtain ⟨p, hp, hnp⟩ := prevDay_nextDay y m d hvalid hne
  have haz : astimezoneUTC ⟨⟨y, m, d⟩, 0, 0, 0, 0, some istOffsetSeconds⟩
      istOffsetSeconds = some ⟨p, 18, 30, 0, 0, some 0⟩ :=
    shift_midnight_back ⟨y, m, d⟩ p hp
  have hfinal : parse_event_datetime_with_tz s = some ⟨p, 18, 30, 0, 0, some 0⟩ := by
    simp [parse_event_datetime_with_tz, hstrip, hempty, htba, hped, hrt, hrh, haz]
  simp only [roundTripsToLocalMidnight, hfinal,
    shift_evening_forward p ⟨y, m, d⟩ hnp]
  simp

/-- C4 witness: `"2025-01-05"` round trips through the fixed timezone. -/
theorem c4_iso_roundtrip_witness :
    roundTripsToLocalMidnight "2025-01-05".data 2025 1 5 = true :=
  c4_iso_roundtrip "2025-01-05".data 2025 1 5 (by decide) (by omega)

/-! ## C7 -/

theorem xmlEscapeChar_ne_nil (c : Char) : xmlEscapeChar c ≠ [] := by
  unfold xmlEscapeChar
  split
  · simp
  · split
    · simp
    · split <;> simp

theorem xmlEscape_isEmpty_false (l : Chars) (h : l ≠ []) :
    (xmlEscape l).isEmpty = false := by
  cases l with
  | nil => exact absurd rfl h
  | cons c cs =>
    simp only [xmlEscape, List.flatMap_cons]
    cases he : xmlEscapeChar c with
    | nil => exact absurd he (xmlEscapeChar_ne_nil c)
    | cons x xs => simp

theorem xmlEscape_ne_nil (l : Chars) (h : l ≠ []) : ¬xmlEscape l = [] := by
  intro hh
  rw [List.isEmpty_iff.symm] at hh
  rw [xmlEscape_isEmpty_false _ h] at hh
  exact Bool.noConfusion hh

/-- C7 counterexample: HTML special characters of the event's description do
NOT appear unescaped inside the CDATA body — `generate_rss_feed` escapes the
description before assembling it, so `a<b&c` is embedded as
`a&lt;b&amp;c`, and the raw text `a<b` occurs nowhere in the body. -/
theorem c7_counterexample :
    fullDescription
        [("title", Scalar.str "x<y"), ("description", Scalar.str "a<b&c"),
         ("location", Scalar.str "L")]
      = some ("a&lt;b&amp;c<br/><br/><strong>Location:</strong> L<br/><strong>Date:</strong> TBD".data)
    ∧ containsChars
        ("a&lt;b&amp;c<br/><br/><strong>Location:</strong> L<br/><strong>Date:</strong> TBD".data)
        ("a<b".data) = false := by
  decide

/-- C7 (amended): in a rendered item the free-text fields are XML-escaped —
including the event's description, which is escaped once and then embedded
in the CDATA-wrapped body, so the generator's own HTML markup
(`<br/>`, `<strong>`) appears verbatim inside the CDATA section while the
escaped field text is preserved without double-escaping. -/
theorem c7_escaped_rendering (t dsc loc : String) (link : Chars)
    (now : PyDateTime) (hloc : loc.data ≠ []) :
    renderItem link now
        [("title", Scalar.str t), ("description", Scalar.str dsc),
         ("location", Scalar.str loc)]
      = some ("    <item>\n      <title>".data ++ xmlEscape t.data
          ++ "</title>\n      <description><![CDATA[".data
          ++ xmlEscape dsc.data
          ++ "<br/><br/><strong>Location:</strong> ".data ++ xmlEscape loc.data
          ++ "<br/><strong>Date:</strong> ".data ++ "TBD".data
          ++ "]]></description>\n      <pubDate>".data
          ++ pubDateOf now
              [("title", Scalar.str t), ("description", Scalar.str dsc),
               ("location", Scalar.str loc)]
          ++ "</pubDate>\n      <link>".data ++ link
          ++ "</link>\n      <guid isPermaLink=\"false\">".data
          ++ (link ++ "/#".data
              ++ lowerStr ((xmlEscape t.data).map (fun c => if c = ' ' then '-' else c))
              ++ "-".data ++ "TBD".data)
          ++ "</guid>\n    </item>".data) := by
  have hle : ¬(xmlEscape loc.data = []) := xmlEscape_ne_nil _ hloc
  have hTBD : xmlEscape "TBD".data = "TBD".data := by decide
  have hnil : xmlEscape ([] : Chars) = [] := rfl
  simp [renderItem, fullDescription, rssGuid, pyGetDefault, optUrl, lookupKey, hle,
    hTBD, hnil, List.append_assoc]

/-- C7 witness: instantiated at concrete fields with HTML special characters
in both the title and the description. -/
theorem c7_escaped_rendering_witness :
    renderItem "https://neotechclub.qzz.io".data
        ⟨⟨2025, 6, 1⟩, 0, 0, 0, 0, some 0⟩
        [("title", Scalar.str "x<y"), ("description", Scalar.str "a<b&c"),
         ("location", Scalar.str "L")]
      = some ("    <item>\n      <title>".data ++ xmlEscape "x<y".data
          ++ "</title>\n      <description><![CDATA[".data
          ++ xmlEscape "a<b&c".data
          ++ "<br/><br/><strong>Location:</strong> ".data ++ xmlEscape "L".data
          ++ "<br/><strong>Date:</strong> ".data ++ "TBD".data
          ++ "]]></description>\n      <pubDate>".data
          ++ pubDateOf ⟨⟨2025, 6, 1⟩, 0, 0, 0, 0, some 0⟩
              [("title", Scalar.str "x<y"), ("description", Scalar.str "a<b&c"),
               ("location", Scalar.str "L")]
          ++ "</pubDate>\n      <link>".data ++ "https://neotechclub.qzz.io".data
          ++ "</link>\n      <guid isPermaLink=\"false\">".data
          ++ ("https://neotechclub.qzz.io".data ++ "/#".data
              ++ lowerStr ((xmlEscape "x<y".data).map
                  (fun c => if c = ' ' then '-' else c))
              ++ "-".data ++ "TBD".data)
          ++ "</guid>\n    </item>".data) :=
  c7_escaped_rendering "x<y" "a<b&c" "L" "https://neotechclub.qzz.io".data
    ⟨⟨2025, 6, 1⟩, 0, 0, 0, 0, some 0⟩ (by decide)

/-! ## C8 -/

/-- The slug of the guid: the XML-escaped title with spaces replaced by
hyphens, lower-cased. -/
def guidSlug (t : String) : Chars :=
  lowerStr ((xmlEscape t.data).map (fun c => if c = ' ' then '-' else c))

/-- C8 counterexample: two events with distinct (title, date) pairs —
titles `"Ab"` and `"ab"`, same `date_utc` — produce the same GUID, because
the slug lower-cases the title. -/
theorem c8_counterexample :
    rssGuid "https://neotechclub.qzz.io".data
        [("title", Scalar.str "Ab"), ("date_utc", Scalar.str "2025-01-05T00:00:00Z")]
      = rssGuid "https://neotechclub.qzz.io".data
        [("title", Scalar.str "ab"), ("date_utc", Scalar.str "2025-01-05T00:00:00Z")]
    ∧ ("Ab" : String) ≠ "ab" := by
  decide

/-- C8 (amended): the GUID is the canonical link plus `/#`, the slug of the
XML-escaped lower-cased space-to-hyphen title, a hyphen, and `date_utc` (the
raw date string when `date_utc` is absent or empty); events whose combined
slug-and-date strings differ get distinct GUIDs (distinct titles alone do
not suffice, as lower-casing can collide); and the guid element is emitted
with `isPermaLink="false"`. -/
theorem c8_guid_structure (link : Chars) (now : PyDateTime) (t1 t2 u1 u2 : String)
    (hu1 : u1.data ≠ []) (hu2 : u2.data ≠ [])
    (hne : guidSlug t1 ++ "-".data ++ u1.data ≠ guidSlug t2 ++ "-".data ++ u2.data) :
    rssGuid link [("title", Scalar.str t1), ("date_utc", Scalar.str u1)]
      = some (link ++ "/#".data ++ guidSlug t1 ++ "-".data ++ u1.data)
    ∧ rssGuid link [("title", Scalar.str t1), ("date_utc", Scalar.str u1)]
      ≠ rssGuid link [("title", Scalar.str t2), ("date_utc", Scalar.str u2)]
    ∧ renderItem link now [("title", Scalar.str t1), ("date_utc", Scalar.str u1)]
      = some ("    <item>\n      <title>".data ++ xmlEscape t1.data
          ++ "</title>\n      <description><![CDATA[".data
          ++ "<br/><br/><strong>Location:</strong> ".data ++ "TBD".data
          ++ "<br/><strong>Date:</strong> ".data ++ "TBD".data
          ++ "]]></description>\n      <pubDate>".data
          ++ pubDateOf now [("title", Scalar.str t1), ("date_utc", Scalar.str u1)]
          ++ "</pubDate>\n      <link>".data ++ link
          ++ "</link>\n      <guid isPermaLink=\"false\">".data
          ++ (link ++ "/#".data ++ guidSlug t1 ++ "-".data ++ u1.data)
          ++ "</guid>\n    </item>".data) := by
  have hg1 : rssGuid link [("title", Scalar.str t1), ("date_utc", Scalar.str u1)]
      = some (link ++ "/#".data ++ guidSlug t1 ++ "-".data ++ u1.data) := by
    simp [rssGuid, pyGetDefault, lookupKey, guidSlug, hu1, List.append_assoc]
  have hg2 : rssGuid link [("title", Scalar.str t2), ("date_utc", Scalar.str u2)]
      = some (link ++ "/#".data ++ guidSlug t2 ++ "-".data ++ u2.data) := by
    simp [rssGuid, pyGetDefault, lookupKey, guidSlug, hu2, List.append_assoc]
  refine ⟨hg1, ?_, ?_⟩
  · rw [hg1, hg2]
    intro heq
    apply hne
    have h1 := Option.some.inj heq
    simp only [List.append_assoc] at h1
    have h3 := List.append_cancel_left (List.append_cancel_left h1)
    simp only [List.append_assoc]
    exact h3
  · have hTBD : xmlEscape "TBD".data = "TBD".data := by decide
    have hnil : xmlEscape ([] : Chars) = [] := rfl
    simp [renderItem, fullDescription, rssGuid, pyGetDefault, optUrl, lookupKey,
      guidSlug, hu1, hTBD, hnil, List.append_assoc]

/-- C8 witness: two concrete events with distinct slugs get distinct GUIDs,
built as stated, and the guid element carries `isPermaLink="false"`. -/
theorem c8_guid_structure_witness :
    rssGuid "https://neotechclub.qzz.io".data
        [("title", Scalar.str "Event A"), ("date_utc", Scalar.str "2025-01-05T00:00:00Z")]
      = some ("https://neotechclub.qzz.io".data ++ "/#".data ++ guidSlug "Event A"
          ++ "-".data ++ "2025-01-05T00:00:00Z".data)
    ∧ rssGuid "https://neotechclub.qzz.io".data
        [("title", Scalar.str "Event A"), ("date_utc", Scalar.str "2025-01-05T00:00:00Z")]
      ≠ rssGuid "https://neotechclub.qzz.io".data
        [("title", Scalar.str "Other"), ("date_utc", Scalar.str "2025-01-05T00:00:00Z")] := by
  have h := c8_guid_structure "https://neotechclub.qzz.io".data
    ⟨⟨2025, 6, 1⟩, 0, 0, 0, 0, some 0⟩ "Event A" "Other"
    "2025-01-05T00:00:00Z" "2025-01-05T00:00:00Z" (by decide) (by decide) (by decide)
  exact ⟨h.1, h.2.1⟩

end Build
